import Mathlib

/-!
Verification of the LUVEX UV strip analyzer pipeline.

The development shallowly embeds the two algorithmic cores of the backend:

* `UVStripAnalyzer.estimate_uv_dose` (backend/main.py and backend/api/main.py):
  the piecewise-linear color-distance → dose calibration, the confidence
  heuristic, and the final `round(dose, 1)` quantisation.  Python floats are
  modelled by exact rationals; `round(x, 1)` is modelled by round-half-to-even
  on `10 * x` (Python's banker's rounding).

* `StripDetector` (backend/api/strip_detector.py): candidate filtering,
  rectangle/total scoring, best-candidate selection (Python `max` keeps the
  first maximal element), padded region extraction, and the fallback crop.
  The OpenCV primitives (Canny, findContours, contourArea, approxPolyDP,
  boundingRect) are treated as oracles: a contour is abstracted by its
  bounding box, its contour area and its simplified-polygon vertex count,
  and a processing fault in the OpenCV stage is an `Except.error` input.
  The `np.sqrt` in the position score is modelled by `Real.sqrt`.
-/

/-- Round-half-to-even to an integer, the rounding mode of Python `round`. -/
def roundHalfEven (q : ℚ) : ℤ :=
  if q - ⌊q⌋ < 1/2 then ⌊q⌋
  else if 1/2 < q - ⌊q⌋ then ⌊q⌋ + 1
  else if ⌊q⌋ % 2 = 0 then ⌊q⌋ else ⌊q⌋ + 1

/-- Python `round(q, 1)`: round to one decimal digit, ties to even. -/
def round1 (q : ℚ) : ℚ := (roundHalfEven (q * 10) : ℚ) / 10

/-- Result record of `UVStripAnalyzer.estimate_uv_dose`. -/
structure DoseEstimate where
  estimated_dose : ℚ
  exposure_level : String
  confidence : ℚ
deriving DecidableEq

/-- `UVStripAnalyzer.estimate_uv_dose` (backend/main.py lines 119-145 and the
identical copy in backend/api/main.py): the four-branch `if` chain computing
the level and the dose, the three-branch confidence heuristic, and the final
`round(estimated_dose, 1)` / `min(100, confidence)` in the returned dict. -/
def estimate_uv_dose (color_distance : ℚ) : DoseEstimate :=
  let levelDose : String × ℚ :=
    if color_distance < 25 then ("low", max 0 (color_distance * 2))
    else if color_distance < 50 then ("medium", 50 + (color_distance - 25) * 4)
    else if color_distance < 80 then ("high", 150 + (color_distance - 50) * 5)
    else ("extreme", 300 + min 200 ((color_distance - 80) * 2.5))
  let confidence : ℚ :=
    if color_distance < 15 then 60
    else if color_distance < 100 then 85
    else 75
  { estimated_dose := round1 levelDose.2
    exposure_level := levelDose.1
    confidence := min 100 confidence }

/-- The spec's dose formula on the low segment [0, 25). -/
def doseLow (d : ℚ) : ℚ := max 0 (d * 2)

/-- The spec's dose formula on the medium segment [25, 50). -/
def doseMedium (d : ℚ) : ℚ := 50 + (d - 25) * 4

/-- The spec's dose formula on the high segment [50, 80). -/
def doseHigh (d : ℚ) : ℚ := 150 + (d - 50) * 5

/-- The spec's dose formula on the extreme segment [80, ∞). -/
def doseExtreme (d : ℚ) : ℚ := 300 + min 200 ((d - 80) * 2.5)

/-- The four-segment piecewise dose curve, before rounding, with the
segments evaluated in the order of the code's `if` chain. -/
def doseCurve (d : ℚ) : ℚ :=
  if d < 25 then doseLow d
  else if d < 50 then doseMedium d
  else if d < 80 then doseHigh d
  else doseExtreme d

lemma estimated_dose_eq (d : ℚ) :
    (estimate_uv_dose d).estimated_dose = round1 (doseCurve d) := by
  unfold estimate_uv_dose doseCurve doseLow doseMedium doseHigh doseExtreme
  split_ifs <;> rfl

lemma exposure_level_eq (d : ℚ) :
    (estimate_uv_dose d).exposure_level =
      (if d < 25 then "low" else if d < 50 then "medium"
        else if d < 80 then "high" else "extreme") := by
  unfold estimate_uv_dose
  split_ifs <;> rfl

lemma doseCurve_mono {d1 d2 : ℚ} (h0 : 0 ≤ d1) (h12 : d1 ≤ d2) :
    doseCurve d1 ≤ doseCurve d2 := by
  have hm1 : max 0 (d1 * 2) = d1 * 2 := max_eq_right (by linarith)
  have hm2 : max 0 (d2 * 2) = d2 * 2 := max_eq_right (by linarith)
  unfold doseCurve doseLow doseMedium doseHigh doseExtreme
  split_ifs with ha hb hc hd he hf <;>
    first
    | linarith
    | (rw [hm1, hm2]; linarith)
    | (rw [hm1]; linarith)
    | (rw [hm1]
       have hmn0 := le_min (show (0:ℚ) ≤ 200 by norm_num)
         (show (0:ℚ) ≤ (d2 - 80) * 2.5 by push_neg at *; nlinarith)
       linarith)
    | (have hmn1 := le_min (show (0:ℚ) ≤ 200 by norm_num)
         (show (0:ℚ) ≤ (d2 - 80) * 2.5 by push_neg at *; nlinarith)
       linarith)
    | (have h200 : min 200 ((d1 - 80) * 2.5) ≤ min 200 ((d2 - 80) * 2.5) :=
         min_le_min le_rfl (by nlinarith)
       linarith)

lemma roundHalfEven_le (q : ℚ) : roundHalfEven q ≤ ⌊q⌋ + 1 := by
  unfold roundHalfEven
  split_ifs <;> omega

lemma le_roundHalfEven (q : ℚ) : ⌊q⌋ ≤ roundHalfEven q := by
  unfold roundHalfEven
  split_ifs <;> omega

lemma roundHalfEven_mono {a b : ℚ} (hab : a ≤ b) : roundHalfEven a ≤ roundHalfEven b := by
  rcases lt_or_eq_of_le (Int.floor_mono hab) with h | h
  · calc roundHalfEven a ≤ ⌊a⌋ + 1 := roundHalfEven_le a
      _ ≤ ⌊b⌋ := by omega
      _ ≤ roundHalfEven b := le_roundHalfEven b
  · have hfrac : a - (⌊b⌋ : ℚ) ≤ b - (⌊b⌋ : ℚ) := by linarith
    unfold roundHalfEven
    rw [h]
    split_ifs <;> first | omega | linarith

lemma round1_mono {a b : ℚ} (h : a ≤ b) : round1 a ≤ round1 b := by
  unfold round1
  have h10 : roundHalfEven (a * 10) ≤ roundHalfEven (b * 10) :=
    roundHalfEven_mono (by linarith)
  have hc : ((roundHalfEven (a * 10) : ℤ) : ℚ) ≤ ((roundHalfEven (b * 10) : ℤ) : ℚ) := by
    exact_mod_cast h10
  linarith

/-- C1 counterexample: at `color_distance = 10.07` the code is in the low
segment but the returned `estimated_dose` is `20.1`, not the raw segment
formula value `max(0, 10.07 × 2.0) = 20.14`, because the code rounds the
dose to one decimal before returning it. -/
theorem C1_counterexample :
    (0:ℚ) ≤ 1007/100 ∧ (1007:ℚ)/100 < 25 ∧
    (estimate_uv_dose (1007/100)).exposure_level = "low" ∧
    (estimate_uv_dose (1007/100)).estimated_dose ≠ max 0 ((1007:ℚ)/100 * 2) := by
  have h1 : doseCurve (1007/100) = 1007/50 := by
    unfold doseCurve doseLow
    rw [if_pos (by norm_num), max_eq_right (by norm_num)]
    ring
  have hf : ⌊(1007:ℚ)/50 * 10⌋ = 201 := Int.floor_eq_iff.mpr (by norm_num)
  have hd : (estimate_uv_dose (1007/100)).estimated_dose = 201/10 := by
    rw [estimated_dose_eq, h1]
    unfold round1 roundHalfEven
    rw [hf]
    rw [if_pos (by norm_num)]
    norm_num
  refine ⟨by norm_num, by norm_num, ?_, ?_⟩
  · rw [exposure_level_eq]
    rw [if_pos (by norm_num)]
  · rw [hd, max_eq_right (by norm_num)]
    norm_num

/-- C1 (amended): for every non-negative `color_distance`,
`estimate_uv_dose` evaluates the four half-open segments in order —
[0, 25) low with `max(0, d × 2.0)`, [25, 50) medium with `50 + (d − 25) × 4.0`,
[50, 80) high with `150 + (d − 50) × 5.0`, [80, ∞) extreme with
`300 + min(200, (d − 80) × 2.5)` — and returns the matching level together
with the segment's dose value rounded to one decimal place. -/
theorem C1_segments (d : ℚ) (h0 : 0 ≤ d) :
    (estimate_uv_dose d).exposure_level =
      (if d < 25 then "low" else if d < 50 then "medium"
        else if d < 80 then "high" else "extreme") ∧
    (estimate_uv_dose d).estimated_dose =
      round1 (if d < 25 then max 0 (d * 2)
        else if d < 50 then 50 + (d - 25) * 4
        else if d < 80 then 150 + (d - 50) * 5
        else 300 + min 200 ((d - 80) * 2.5)) := by
  refine ⟨exposure_level_eq d, ?_⟩
  rw [estimated_dose_eq]
  unfold doseCurve doseLow doseMedium doseHigh doseExtreme
  split_ifs <;> rfl

theorem C1_segments_witness :
    (estimate_uv_dose 30).exposure_level =
      (if (30:ℚ) < 25 then "low" else if (30:ℚ) < 50 then "medium"
        else if (30:ℚ) < 80 then "high" else "extreme") ∧
    (estimate_uv_dose 30).estimated_dose =
      round1 (if (30:ℚ) < 25 then max 0 (30 * 2)
        else if (30:ℚ) < 50 then 50 + (30 - 25) * 4
        else if (30:ℚ) < 80 then 150 + (30 - 50) * 5
        else 300 + min 200 ((30 - 80) * 2.5)) :=
  C1_segments 30 (by norm_num)

/-- C2: the returned `estimated_dose` is monotonically non-decreasing in
`color_distance` over the non-negative range, and the segment formulas agree
at the three boundaries 25, 50 and 80 (so the curve has no discontinuity
there), well within the tolerance 1e-6 — the agreement is in fact exact. -/
theorem C2_dose_monotone_continuous (d1 d2 : ℚ) (h0 : 0 ≤ d1) (h12 : d1 ≤ d2) :
    (estimate_uv_dose d1).estimated_dose ≤ (estimate_uv_dose d2).estimated_dose ∧
    |doseLow 25 - doseMedium 25| ≤ 1/1000000 ∧
    |doseMedium 50 - doseHigh 50| ≤ 1/1000000 ∧
    |doseHigh 80 - doseExtreme 80| ≤ 1/1000000 := by
  refine ⟨?_, ?_, ?_, ?_⟩
  · rw [estimated_dose_eq, estimated_dose_eq]
    exact round1_mono (doseCurve_mono h0 h12)
  · unfold doseLow doseMedium
    norm_num
  · unfold doseMedium doseHigh
    norm_num
  · unfold doseHigh doseExtreme
    norm_num

theorem C2_dose_monotone_continuous_witness :
    (estimate_uv_dose 10).estimated_dose ≤ (estimate_uv_dose 60).estimated_dose ∧
    |doseLow 25 - doseMedium 25| ≤ 1/1000000 ∧
    |doseMedium 50 - doseHigh 50| ≤ 1/1000000 ∧
    |doseHigh 80 - doseExtreme 80| ≤ 1/1000000 :=
  C2_dose_monotone_continuous 10 60 (by norm_num) (by norm_num)

/-- C7: for every non-negative `color_distance` the returned confidence is
60 below 15, 85 on [15, 100), 75 from 100 on, and always lies in [0, 100]. -/
theorem C7_confidence (d : ℚ) (h0 : 0 ≤ d) :
    (estimate_uv_dose d).confidence =
      (if d < 15 then 60 else if d < 100 then 85 else 75) ∧
    0 ≤ (estimate_uv_dose d).confidence ∧ (estimate_uv_dose d).confidence ≤ 100 := by
  unfold estimate_uv_dose
  split_ifs <;> norm_num

theorem C7_confidence_witness :
    (estimate_uv_dose 20).confidence =
      (if (20:ℚ) < 15 then 60 else if (20:ℚ) < 100 then 85 else 75) ∧
    0 ≤ (estimate_uv_dose 20).confidence ∧ (estimate_uv_dose 20).confidence ≤ 100 :=
  C7_confidence 20 (by norm_num)

/-- C10: the returned `estimated_dose` is the piecewise-linear segment value
rounded to one decimal place with round-half-to-even (Python `round(x, 1)`);
in particular every returned dose is an integer multiple of 0.1. -/
theorem C10_dose_quantized (d : ℚ) (h0 : 0 ≤ d) :
    (estimate_uv_dose d).estimated_dose = (roundHalfEven (doseCurve d * 10) : ℚ) / 10 ∧
    ∃ k : ℤ, (estimate_uv_dose d).estimated_dose = (k : ℚ) / 10 := by
  refine ⟨by rw [estimated_dose_eq]; rfl, roundHalfEven (doseCurve d * 10), ?_⟩
  rw [estimated_dose_eq]
  rfl

theorem C10_dose_quantized_witness :
    (estimate_uv_dose (1007/100)).estimated_dose =
      (roundHalfEven (doseCurve (1007/100) * 10) : ℚ) / 10 ∧
    ∃ k : ℤ, (estimate_uv_dose (1007/100)).estimated_dose = (k : ℚ) / 10 :=
  C10_dose_quantized (1007/100) (by norm_num)

/-- Abstraction of one OpenCV contour as `StripDetector` consumes it:
`x y w h` is `cv2.boundingRect`, `contourArea` is `cv2.contourArea` (always
non-negative), `corners` is `len(cv2.approxPolyDP(contour, 0.02 * perimeter,
True))`. -/
structure Contour where
  x : ℕ
  y : ℕ
  w : ℕ
  h : ℕ
  contourArea : ℚ
  corners : ℕ
deriving DecidableEq

/-- The candidate dict built in `StripDetector._find_strip_candidates`
(the raw contour reference is dropped: nothing downstream reads it). -/
structure Candidate where
  x : ℕ
  y : ℕ
  w : ℕ
  h : ℕ
  area : ℕ
  areaPercent : ℚ
  aspect : ℚ
  rectScore : ℚ
deriving DecidableEq

/-- `area_percent = (area / image_area) * 100` with
`image_area = shape[0] * shape[1] = imgH * imgW`. -/
def area_percent_of (imgW imgH : ℕ) (ct : Contour) : ℚ :=
  ((ct.w * ct.h : ℕ) : ℚ) / ((imgH * imgW : ℕ) : ℚ) * 100

/-- `aspect_ratio = max(w, h) / min(w, h)`. -/
def aspect_of (ct : Contour) : ℚ :=
  ((max ct.w ct.h : ℕ) : ℚ) / ((min ct.w ct.h : ℕ) : ℚ)

/-- `StripDetector._calculate_rectangle_score`: 0 for an empty bounding box,
otherwise `min(1, (contour_area / bbox_area) * 0.7 + max(0, 1 - |corners - 4| * 0.1) * 0.3)`. -/
def calculate_rectangle_score (ct : Contour) : ℚ :=
  if (ct.w * ct.h : ℕ) = 0 then 0
  else
    min 1 ((ct.contourArea / ((ct.w * ct.h : ℕ) : ℚ)) * 0.7 +
      (max 0 (1 - |(ct.corners : ℚ) - 4| * 0.1)) * 0.3)

/-- The candidate record appended for a contour that passes all filters. -/
def candidateOf (imgW imgH : ℕ) (ct : Contour) : Candidate :=
  { x := ct.x
    y := ct.y
    w := ct.w
    h := ct.h
    area := ct.w * ct.h
    areaPercent := area_percent_of imgW imgH ct
    aspect := aspect_of ct
    rectScore := calculate_rectangle_score ct }

/-- The filtering loop of `StripDetector._find_strip_candidates`: a contour
is skipped when its bounding-box area is below 500, when its area percent is
outside [2, 40], or when its aspect ratio is outside [1.5, 8.0]; survivors
become candidate records, in contour order. -/
def find_strip_candidates (imgW imgH : ℕ) : List Contour → List Candidate
  | [] => []
  | ct :: rest =>
    if ct.w * ct.h < 500 then find_strip_candidates imgW imgH rest
    else if ¬ (2 ≤ area_percent_of imgW imgH ct ∧ area_percent_of imgW imgH ct ≤ 40) then
      find_strip_candidates imgW imgH rest
    else if ¬ (3/2 ≤ aspect_of ct ∧ aspect_of ct ≤ 8) then
      find_strip_candidates imgW imgH rest
    else candidateOf imgW imgH ct :: find_strip_candidates imgW imgH rest

/-- A crop box `(x1, y1, x2, y2)` as passed to `PIL.Image.crop`. -/
structure Crop where
  x1 : ℕ
  y1 : ℕ
  x2 : ℕ
  y2 : ℕ
deriving DecidableEq

/-- `StripDetector._extract_strip_region`: pad the bounding box by
`max(5, int(side * 0.05))` on each side and clip to the image (natural
subtraction models Python's `max(0, x - padding)` on non-negative ints). -/
def extract_strip_region (imgW imgH : ℕ) (c : Candidate) : Crop :=
  { x1 := c.x - max 5 (c.w * 5 / 100)
    y1 := c.y - max 5 (c.h * 5 / 100)
    x2 := min imgW (c.x + c.w + max 5 (c.w * 5 / 100))
    y2 := min imgH (c.y + c.h + max 5 (c.h * 5 / 100)) }

/-- `StripDetector._fallback_extraction`: the crop
`(w // 4, h // 3, 3 * w // 4, 2 * h // 3)` (Python integer division). -/
def fallback_extraction (imgW imgH : ℕ) : Crop :=
  { x1 := imgW / 4
    y1 := imgH / 3
    x2 := 3 * imgW / 4
    y2 := 2 * imgH / 3 }

lemma mem_find_strip_candidates {imgW imgH : ℕ} {cts : List Contour} {c : Candidate} :
    c ∈ find_strip_candidates imgW imgH cts ↔
      ∃ ct, ct ∈ cts ∧ c = candidateOf imgW imgH ct ∧
        500 ≤ ct.w * ct.h ∧
        (2 ≤ area_percent_of imgW imgH ct ∧ area_percent_of imgW imgH ct ≤ 40) ∧
        (3/2 ≤ aspect_of ct ∧ aspect_of ct ≤ 8) := by
  induction cts with
  | nil => simp [find_strip_candidates]
  | cons ct rest ih =>
    by_cases hc1 : ct.w * ct.h < 500
    · have e : find_strip_candidates imgW imgH (ct :: rest)
          = find_strip_candidates imgW imgH rest := by
        conv_lhs => rw [find_strip_candidates]
        rw [if_pos hc1]
      rw [e, ih]
      constructor
      · rintro ⟨a, ha, hrest⟩
        exact ⟨a, List.mem_cons_of_mem _ ha, hrest⟩
      · rintro ⟨a, ha, heq, hA, hP, hR⟩
        rcases List.mem_cons.mp ha with rfl | ha'
        · exact absurd hA (not_le.mpr hc1)
        · exact ⟨a, ha', heq, hA, hP, hR⟩
    · by_cases hc2 : 2 ≤ area_percent_of imgW imgH ct ∧ area_percent_of imgW imgH ct ≤ 40
      · by_cases hc3 : 3/2 ≤ aspect_of ct ∧ aspect_of ct ≤ 8
        · have e : find_strip_candidates imgW imgH (ct :: rest)
              = candidateOf imgW imgH ct :: find_strip_candidates imgW imgH rest := by
            conv_lhs => rw [find_strip_candidates]
            rw [if_neg hc1, if_neg (not_not_intro hc2), if_neg (not_not_intro hc3)]
          rw [e]
          constructor
          · intro hmem
            rcases List.mem_cons.mp hmem with rfl | hmem'
            · exact ⟨ct, List.mem_cons_self _ _, rfl, not_lt.mp hc1, hc2, hc3⟩
            · obtain ⟨a, ha, hrest⟩ := ih.mp hmem'
              exact ⟨a, List.mem_cons_of_mem _ ha, hrest⟩
          · rintro ⟨a, ha, heq, hA, hP, hR⟩
            rcases List.mem_cons.mp ha with rfl | ha'
            · exact heq ▸ List.mem_cons_self _ _
            · exact List.mem_cons_of_mem _ (ih.mpr ⟨a, ha', heq, hA, hP, hR⟩)
        · have e : find_strip_candidates imgW imgH (ct :: rest)
              = find_strip_candidates imgW imgH rest := by
            conv_lhs => rw [find_strip_candidates]
            rw [if_neg hc1, if_neg (not_not_intro hc2), if_pos hc3]
          rw [e, ih]
          constructor
          · rintro ⟨a, ha, hrest⟩
            exact ⟨a, List.mem_cons_of_mem _ ha, hrest⟩
          · rintro ⟨a, ha, heq, hA, hP, hR⟩
            rcases List.mem_cons.mp ha with rfl | ha'
            · exact absurd hR hc3
            · exact ⟨a, ha', heq, hA, hP, hR⟩
      · have e : find_strip_candidates imgW imgH (ct :: rest)
            = find_strip_candidates imgW imgH rest := by
          conv_lhs => rw [find_strip_candidates]
          rw [if_neg hc1, if_pos hc2]
        rw [e, ih]
        constructor
        · rintro ⟨a, ha, hrest⟩
          exact ⟨a, List.mem_cons_of_mem _ ha, hrest⟩
        · rintro ⟨a, ha, heq, hA, hP, hR⟩
          rcases List.mem_cons.mp ha with rfl | ha'
          · exact absurd hP hc2
          · exact ⟨a, ha', heq, hA, hP, hR⟩

/-- C4: a contour's bounding box becomes a candidate exactly when all three
filters hold — bounding-box area at least 500 pixels, area percent of the
image in [2, 40], and aspect ratio `max(w,h)/min(w,h)` in [1.5, 8.0]; a
contour failing any one of them contributes nothing (so an all-rejected list
yields the empty, still valid, candidate list). -/
theorem C4_candidate_filter (imgW imgH : ℕ) (cts : List Contour) (c : Candidate) :
    c ∈ find_strip_candidates imgW imgH cts ↔
      ∃ ct, ct ∈ cts ∧ c = candidateOf imgW imgH ct ∧
        500 ≤ ct.w * ct.h ∧
        (2 ≤ area_percent_of imgW imgH ct ∧ area_percent_of imgW imgH ct ≤ 40) ∧
        (3/2 ≤ aspect_of ct ∧ aspect_of ct ≤ 8) :=
  mem_find_strip_candidates

/-- `area_score = min(1.0, area_percent / 20)` in `_select_best_strip`. -/
def area_score (c : Candidate) : ℚ := min 1 (c.areaPercent / 20)

/-- `aspect_score = min(1.0, aspect_ratio / 4)` in `_select_best_strip`. -/
def aspect_score (c : Candidate) : ℚ := min 1 (c.aspect / 4)

/-- The squared distance of the candidate's bounding-box center
`(x + w/2, y + h/2)` from the image center `(shape[1]/2, shape[0]/2)`. -/
def dist_sq_center (imgW imgH : ℕ) (c : Candidate) : ℚ :=
  (((c.x : ℚ) + (c.w : ℚ) / 2) - (imgW : ℚ) / 2) ^ 2 +
    (((c.y : ℚ) + (c.h : ℚ) / 2) - (imgH : ℚ) / 2) ^ 2

/-- The squared maximal center distance `img_center_x² + img_center_y²`. -/
def max_dist_sq (imgW imgH : ℕ) : ℚ :=
  ((imgW : ℚ) / 2) ^ 2 + ((imgH : ℚ) / 2) ^ 2

/-- `position_score = 1 - distance_from_center / max_distance`, with the two
`np.sqrt` calls modelled by `Real.sqrt`. -/
noncomputable def position_score (imgW imgH : ℕ) (c : Candidate) : ℝ :=
  1 - Real.sqrt ((dist_sq_center imgW imgH c : ℚ) : ℝ) /
    Real.sqrt ((max_dist_sq imgW imgH : ℚ) : ℝ)

/-- The weighted `total_score` of `_select_best_strip`:
`rect_score * 0.4 + area_score * 0.3 + aspect_score * 0.2 + position_score * 0.1`. -/
noncomputable def total_score (imgW imgH : ℕ) (c : Candidate) : ℝ :=
  (c.rectScore : ℝ) * 0.4 + (area_score c : ℝ) * 0.3 + (aspect_score c : ℝ) * 0.2 +
    position_score imgW imgH c * 0.1

open Classical in
/-- Python's `max(candidates, key=total_score)` scan: the running best is
replaced only on a strictly larger key, so the first maximal element wins. -/
noncomputable def pickBest (imgW imgH : ℕ) : Candidate → List Candidate → Candidate
  | best, [] => best
  | best, c :: rest =>
    if total_score imgW imgH best < total_score imgW imgH c then pickBest imgW imgH c rest
    else pickBest imgW imgH best rest

/-- `StripDetector._select_best_strip`: `None` on an empty candidate list,
otherwise the first candidate of maximal `total_score`. -/
noncomputable def select_best_strip (imgW imgH : ℕ) : List Candidate → Option Candidate
  | [] => none
  | c :: rest => some (pickBest imgW imgH c rest)

/-- `StripDetector.detect_strip`: the preprocessing / contour stage is an
oracle input that either faults (`Except.error`, covering any exception the
`try` block catches) or yields the contour list; then candidates are
filtered, the best is selected, and its padded region is extracted — with
the deterministic center crop as fallback when selection yields nothing or
the stage faulted.  The function is total: no exception reaches the caller. -/
noncomputable def detect_strip (imgW imgH : ℕ)
    (contoursResult : Except Unit (List Contour)) : Crop :=
  match contoursResult with
  | Except.error _ => fallback_extraction imgW imgH
  | Except.ok cts =>
    match select_best_strip imgW imgH (find_strip_candidates imgW imgH cts) with
    | none => fallback_extraction imgW imgH
    | some best => extract_strip_region imgW imgH best

/-- C3: whenever the contour stage faults or no contour survives filtering,
`detect_strip` returns, instead of propagating any error, exactly the
fallback crop `(w / 4, h / 3, 3 * w / 4, 2 * h / 3)` (Python integer
division) of the input image. -/
theorem C3_fallback (imgW imgH : ℕ) (res : Except Unit (List Contour))
    (hempty : ∀ cts, res = Except.ok cts → find_strip_candidates imgW imgH cts = []) :
    detect_strip imgW imgH res =
      { x1 := imgW / 4, y1 := imgH / 3, x2 := 3 * imgW / 4, y2 := 2 * imgH / 3 } := by
  match res with
  | Except.error e => rfl
  | Except.ok cts =>
    have h := hempty cts rfl
    show (match select_best_strip imgW imgH (find_strip_candidates imgW imgH cts) with
      | none => fallback_extraction imgW imgH
      | some best => extract_strip_region imgW imgH best) = _
    rw [h]
    rfl

theorem C3_fallback_witness :
    detect_strip 8 9 (Except.error ()) = { x1 := 2, y1 := 3, x2 := 6, y2 := 6 } :=
  C3_fallback 8 9 (Except.error ()) (fun _ h => nomatch h)

lemma pickBest_mem_max (imgW imgH : ℕ) :
    ∀ (rest : List Candidate) (best : Candidate),
      ∃ pre post,
        best :: rest = pre ++ pickBest imgW imgH best rest :: post ∧
        (∀ c ∈ best :: rest,
          total_score imgW imgH c ≤ total_score imgW imgH (pickBest imgW imgH best rest)) ∧
        (∀ c ∈ pre,
          total_score imgW imgH c < total_score imgW imgH (pickBest imgW imgH best rest)) := by
  intro rest
  induction rest with
  | nil =>
    intro best
    refine ⟨[], [], rfl, ?_, ?_⟩
    · intro c hc
      rcases List.mem_cons.mp hc with rfl | hc
      · exact le_refl _
      · exact absurd hc (List.not_mem_nil c)
    · intro c hc
      exact absurd hc (List.not_mem_nil c)
  | cons c rest ih =>
    intro best
    by_cases hlt : total_score imgW imgH best < total_score imgW imgH c
    · have e : pickBest imgW imgH best (c :: rest) = pickBest imgW imgH c rest := by
        rw [pickBest, if_pos hlt]
      obtain ⟨pre, post, heq, hmax, hpre⟩ := ih c
      refine ⟨best :: pre, post, ?_, ?_, ?_⟩
      · rw [e, List.cons_append, ← heq]
      · intro d hd
        rw [e]
        rcases List.mem_cons.mp hd with rfl | hd'
        · exact le_trans (le_of_lt hlt) (hmax c (List.mem_cons_self _ _))
        · exact hmax d hd'
      · intro d hd
        rw [e]
        rcases List.mem_cons.mp hd with rfl | hd'
        · exact lt_of_lt_of_le hlt (hmax c (List.mem_cons_self _ _))
        · exact hpre d hd'
    · have e : pickBest imgW imgH best (c :: rest) = pickBest imgW imgH best rest := by
        rw [pickBest, if_neg hlt]
      obtain ⟨pre, post, heq, hmax, hpre⟩ := ih best
      cases pre with
      | nil =>
        simp only [List.nil_append] at heq
        injection heq with h1 h2
        refine ⟨[], c :: rest, ?_, ?_, ?_⟩
        · rw [e, List.nil_append, ← h1, h2]
        · intro d hd
          rw [e]
          rcases List.mem_cons.mp hd with rfl | hd'
          · exact hmax d (List.mem_cons_self _ _)
          · rcases List.mem_cons.mp hd' with rfl | hd''
            · exact le_trans (not_lt.mp hlt) (hmax best (List.mem_cons_self _ _))
            · exact hmax d (List.mem_cons_of_mem _ hd'')
        · intro d hd
          exact absurd hd (List.not_mem_nil d)
      | cons p pre2 =>
        rw [List.cons_append] at heq
        injection heq with h1 h2
        have hbeststrict :
            total_score imgW imgH best < total_score imgW imgH (pickBest imgW imgH best rest) := by
          have := hpre p (List.mem_cons_self _ _)
          rw [← h1] at this
          exact this
        refine ⟨best :: c :: pre2, post, ?_, ?_, ?_⟩
        · rw [e, List.cons_append, List.cons_append, ← h2]
        · intro d hd
          rw [e]
          rcases List.mem_cons.mp hd with rfl | hd'
          · exact hmax d (List.mem_cons_self _ _)
          · rcases List.mem_cons.mp hd' with rfl | hd''
            · exact le_trans (not_lt.mp hlt) (hmax best (List.mem_cons_self _ _))
            · exact hmax d (List.mem_cons_of_mem _ hd'')
        · intro d hd
          rw [e]
          rcases List.mem_cons.mp hd with rfl | hd'
          · exact hbeststrict
          · rcases List.mem_cons.mp hd' with rfl | hd''
            · exact lt_of_le_of_lt (not_lt.mp hlt) hbeststrict
            · exact hpre d (List.mem_cons_of_mem _ hd'')

/-- C5: on a non-empty candidate list, `detect_strip` picks the candidate of
maximal `total_score` — on ties the first-encountered one, the earlier
candidates all scoring strictly lower — and returns its bounding box padded
on each side by 5% of the candidate's own width/height (at least 5 px),
clipped to the image bounds. -/
theorem C5_argmax_selection (imgW imgH : ℕ) (cts : List Contour)
    (hne : find_strip_candidates imgW imgH cts ≠ []) :
    ∃ best pre post,
      find_strip_candidates imgW imgH cts = pre ++ best :: post ∧
      (∀ c ∈ find_strip_candidates imgW imgH cts,
        total_score imgW imgH c ≤ total_score imgW imgH best) ∧
      (∀ c ∈ pre, total_score imgW imgH c < total_score imgW imgH best) ∧
      detect_strip imgW imgH (Except.ok cts) =
        { x1 := best.x - max 5 (best.w * 5 / 100)
          y1 := best.y - max 5 (best.h * 5 / 100)
          x2 := min imgW (best.x + best.w + max 5 (best.w * 5 / 100))
          y2 := min imgH (best.y + best.h + max 5 (best.h * 5 / 100)) } := by
  cases hcs : find_strip_candidates imgW imgH cts with
  | nil => exact absurd hcs hne
  | cons c rest =>
    obtain ⟨pre, post, heq, hmax, hpre⟩ := pickBest_mem_max imgW imgH rest c
    refine ⟨pickBest imgW imgH c rest, pre, post, heq, ?_, hpre, ?_⟩
    · intro d hd
      exact hmax d hd
    · show (match select_best_strip imgW imgH (find_strip_candidates imgW imgH cts) with
        | none => fallback_extraction imgW imgH
        | some best => extract_strip_region imgW imgH best) = _
      rw [hcs]
      rfl

lemma find_one_candidate :
    find_strip_candidates 100 100 [⟨30, 40, 40, 20, 700, 4⟩] =
      [candidateOf 100 100 ⟨30, 40, 40, 20, 700, 4⟩] := by
  rw [find_strip_candidates]
  rw [if_neg (by norm_num), if_neg (not_not_intro (by norm_num [area_percent_of])),
    if_neg (not_not_intro (by norm_num [aspect_of]))]
  rw [find_strip_candidates]

theorem C5_argmax_selection_witness :
    ∃ best pre post,
      find_strip_candidates 100 100 [⟨30, 40, 40, 20, 700, 4⟩] = pre ++ best :: post ∧
      (∀ c ∈ find_strip_candidates 100 100 [⟨30, 40, 40, 20, 700, 4⟩],
        total_score 100 100 c ≤ total_score 100 100 best) ∧
      (∀ c ∈ pre, total_score 100 100 c < total_score 100 100 best) ∧
      detect_strip 100 100 (Except.ok [⟨30, 40, 40, 20, 700, 4⟩]) =
        { x1 := best.x - max 5 (best.w * 5 / 100)
          y1 := best.y - max 5 (best.h * 5 / 100)
          x2 := min 100 (best.x + best.w + max 5 (best.w * 5 / 100))
          y2 := min 100 (best.y + best.h + max 5 (best.h * 5 / 100)) } :=
  C5_argmax_selection 100 100 [⟨30, 40, 40, 20, 700, 4⟩]
    (by rw [find_one_candidate]; exact List.cons_ne_nil _ _)

lemma sq_dev_le {t L : ℚ} (h0 : 0 ≤ t) (hL : t ≤ L) :
    (t - L / 2) ^ 2 ≤ (L / 2) ^ 2 := by
  nlinarith [mul_nonneg h0 (sub_nonneg.mpr hL)]

lemma dist_sq_le_max (imgW imgH : ℕ) (c : Candidate)
    (hx : c.x + c.w ≤ imgW) (hy : c.y + c.h ≤ imgH) :
    dist_sq_center imgW imgH c ≤ max_dist_sq imgW imgH := by
  unfold dist_sq_center max_dist_sq
  have hx' : (c.x : ℚ) + (c.w : ℚ) ≤ (imgW : ℚ) := by exact_mod_cast hx
  have hy' : (c.y : ℚ) + (c.h : ℚ) ≤ (imgH : ℚ) := by exact_mod_cast hy
  have hw0 : (0:ℚ) ≤ (c.w : ℚ) := by positivity
  have hh0 : (0:ℚ) ≤ (c.h : ℚ) := by positivity
  have h1 : (0:ℚ) ≤ (c.x : ℚ) + (c.w : ℚ) / 2 := by positivity
  have h2 : (c.x : ℚ) + (c.w : ℚ) / 2 ≤ (imgW : ℚ) := by linarith
  have h3 : (0:ℚ) ≤ (c.y : ℚ) + (c.h : ℚ) / 2 := by positivity
  have h4 : (c.y : ℚ) + (c.h : ℚ) / 2 ≤ (imgH : ℚ) := by linarith
  exact add_le_add (sq_dev_le h1 h2) (sq_dev_le h3 h4)

lemma max_dist_sq_pos (imgW imgH : ℕ) (hW : 0 < imgW) :
    (0:ℚ) < max_dist_sq imgW imgH := by
  unfold max_dist_sq
  have hiw : (0:ℚ) < (imgW : ℚ) := by exact_mod_cast hW
  have h1 : (0:ℚ) < ((imgW : ℚ) / 2) ^ 2 := by positivity
  have h2 : (0:ℚ) ≤ ((imgH : ℚ) / 2) ^ 2 := sq_nonneg _
  linarith

lemma position_score_bounds (imgW imgH : ℕ) (c : Candidate) (hW : 0 < imgW)
    (hx : c.x + c.w ≤ imgW) (hy : c.y + c.h ≤ imgH) :
    0 ≤ position_score imgW imgH c ∧ position_score imgW imgH c ≤ 1 := by
  have hM := max_dist_sq_pos imgW imgH hW
  have hMR : (0:ℝ) < ((max_dist_sq imgW imgH : ℚ) : ℝ) := by exact_mod_cast hM
  have hsqrtM : 0 < Real.sqrt ((max_dist_sq imgW imgH : ℚ) : ℝ) := Real.sqrt_pos.mpr hMR
  have hDle : ((dist_sq_center imgW imgH c : ℚ) : ℝ) ≤ ((max_dist_sq imgW imgH : ℚ) : ℝ) := by
    exact_mod_cast dist_sq_le_max imgW imgH c hx hy
  have hsqrtle : Real.sqrt ((dist_sq_center imgW imgH c : ℚ) : ℝ) ≤
      Real.sqrt ((max_dist_sq imgW imgH : ℚ) : ℝ) := Real.sqrt_le_sqrt hDle
  unfold position_score
  constructor
  · have h1 : Real.sqrt ((dist_sq_center imgW imgH c : ℚ) : ℝ) /
        Real.sqrt ((max_dist_sq imgW imgH : ℚ) : ℝ) ≤ 1 := (div_le_one hsqrtM).mpr hsqrtle
    linarith
  · have h0 : 0 ≤ Real.sqrt ((dist_sq_center imgW imgH c : ℚ) : ℝ) /
        Real.sqrt ((max_dist_sq imgW imgH : ℚ) : ℝ) :=
      div_nonneg (Real.sqrt_nonneg _) (le_of_lt hsqrtM)
    linarith

lemma calculate_rectangle_score_bounds (ct : Contour) (hca : 0 ≤ ct.contourArea) :
    0 ≤ calculate_rectangle_score ct ∧ calculate_rectangle_score ct ≤ 1 := by
  unfold calculate_rectangle_score
  split_ifs with h
  · norm_num
  · refine ⟨le_min (by norm_num) ?_, min_le_left _ _⟩
    have h1 : (0:ℚ) ≤ ct.contourArea / ((ct.w * ct.h : ℕ) : ℚ) :=
      div_nonneg hca (by positivity)
    have h2 : (0:ℚ) ≤ max 0 (1 - |(ct.corners : ℚ) - 4| * 0.1) := le_max_left _ _
    have := add_nonneg (mul_nonneg h1 (by norm_num : (0:ℚ) ≤ 0.7))
      (mul_nonneg h2 (by norm_num : (0:ℚ) ≤ 0.3))
    linarith

lemma area_percent_of_nonneg (imgW imgH : ℕ) (ct : Contour) :
    0 ≤ area_percent_of imgW imgH ct := by
  unfold area_percent_of
  positivity

lemma aspect_of_nonneg (ct : Contour) : 0 ≤ aspect_of ct := by
  unfold aspect_of
  positivity

/-- C6: for any candidate generated from a contour whose bounding box lies
inside the image, both `rect_score` (as stored on the candidate) and the
weighted `total_score` lie in [0, 1]. -/
theorem C6_scores_in_unit (imgW imgH : ℕ) (ct : Contour) (hW : 0 < imgW)
    (hca : 0 ≤ ct.contourArea)
    (hx : ct.x + ct.w ≤ imgW) (hy : ct.y + ct.h ≤ imgH) :
    (0 ≤ (candidateOf imgW imgH ct).rectScore ∧ (candidateOf imgW imgH ct).rectScore ≤ 1) ∧
    (0 ≤ total_score imgW imgH (candidateOf imgW imgH ct) ∧
      total_score imgW imgH (candidateOf imgW imgH ct) ≤ 1) := by
  have hrect : 0 ≤ (candidateOf imgW imgH ct).rectScore ∧
      (candidateOf imgW imgH ct).rectScore ≤ 1 := calculate_rectangle_score_bounds ct hca
  refine ⟨hrect, ?_⟩
  have hA1 : (0:ℚ) ≤ area_score (candidateOf imgW imgH ct) :=
    le_min (by norm_num) (div_nonneg (area_percent_of_nonneg imgW imgH ct) (by norm_num))
  have hA2 : area_score (candidateOf imgW imgH ct) ≤ 1 := min_le_left _ _
  have hS1 : (0:ℚ) ≤ aspect_score (candidateOf imgW imgH ct) :=
    le_min (by norm_num) (div_nonneg (aspect_of_nonneg ct) (by norm_num))
  have hS2 : aspect_score (candidateOf imgW imgH ct) ≤ 1 := min_le_left _ _
  have hP := position_score_bounds imgW imgH (candidateOf imgW imgH ct) hW hx hy
  unfold total_score
  have hr1 : (0:ℝ) ≤ ((candidateOf imgW imgH ct).rectScore : ℝ) := by exact_mod_cast hrect.1
  have hr2 : ((candidateOf imgW imgH ct).rectScore : ℝ) ≤ 1 := by exact_mod_cast hrect.2
  have ha1 : (0:ℝ) ≤ (area_score (candidateOf imgW imgH ct) : ℝ) := by exact_mod_cast hA1
  have ha2 : (area_score (candidateOf imgW imgH ct) : ℝ) ≤ 1 := by exact_mod_cast hA2
  have hs1 : (0:ℝ) ≤ (aspect_score (candidateOf imgW imgH ct) : ℝ) := by exact_mod_cast hS1
  have hs2 : (aspect_score (candidateOf imgW imgH ct) : ℝ) ≤ 1 := by exact_mod_cast hS2
  constructor
  · nlinarith [hP.1, hP.2]
  · nlinarith [hP.1, hP.2]

theorem C6_scores_in_unit_witness :
    (0 ≤ (candidateOf 100 100 ⟨30, 40, 40, 20, 700, 4⟩).rectScore ∧
      (candidateOf 100 100 ⟨30, 40, 40, 20, 700, 4⟩).rectScore ≤ 1) ∧
    (0 ≤ total_score 100 100 (candidateOf 100 100 ⟨30, 40, 40, 20, 700, 4⟩) ∧
      total_score 100 100 (candidateOf 100 100 ⟨30, 40, 40, 20, 700, 4⟩) ≤ 1) :=
  C6_scores_in_unit 100 100 ⟨30, 40, 40, 20, 700, 4⟩ (by norm_num) (by norm_num)
    (by norm_num) (by norm_num)

/-- C8: two candidates in the same image with identical stored
`rect_score`, `area_percent` and `aspect_ratio` but different center
distances — the one strictly closer to the image center gets the strictly
higher `total_score`. -/
theorem C8_closer_center_wins (imgW imgH : ℕ) (c1 c2 : Candidate) (hW : 0 < imgW)
    (hrect : c1.rectScore = c2.rectScore)
    (harea : c1.areaPercent = c2.areaPercent)
    (haspect : c1.aspect = c2.aspect)
    (hdist : Real.sqrt ((dist_sq_center imgW imgH c1 : ℚ) : ℝ) <
      Real.sqrt ((dist_sq_center imgW imgH c2 : ℚ) : ℝ)) :
    total_score imgW imgH c2 < total_score imgW imgH c1 := by
  have hM := max_dist_sq_pos imgW imgH hW
  have hMR : (0:ℝ) < ((max_dist_sq imgW imgH : ℚ) : ℝ) := by exact_mod_cast hM
  have hsqrtM : 0 < Real.sqrt ((max_dist_sq imgW imgH : ℚ) : ℝ) := Real.sqrt_pos.mpr hMR
  have hposlt : position_score imgW imgH c2 < position_score imgW imgH c1 := by
    unfold position_score
    have h2 : Real.sqrt ((dist_sq_center imgW imgH c1 : ℚ) : ℝ) /
        Real.sqrt ((max_dist_sq imgW imgH : ℚ) : ℝ) <
        Real.sqrt ((dist_sq_center imgW imgH c2 : ℚ) : ℝ) /
        Real.sqrt ((max_dist_sq imgW imgH : ℚ) : ℝ) :=
      div_lt_div_of_pos_right hdist hsqrtM
    linarith
  have e2 : area_score c1 = area_score c2 := by
    unfold area_score
    rw [harea]
  have e3 : aspect_score c1 = aspect_score c2 := by
    unfold aspect_score
    rw [haspect]
  unfold total_score
  rw [hrect, e2, e3]
  linarith

theorem C8_closer_center_wins_witness :
    total_score 100 100 ⟨0, 0, 40, 20, 800, 8, 2, 1/2⟩ <
      total_score 100 100 ⟨30, 40, 40, 20, 800, 8, 2, 1/2⟩ :=
  C8_closer_center_wins 100 100 ⟨30, 40, 40, 20, 800, 8, 2, 1/2⟩ ⟨0, 0, 40, 20, 800, 8, 2, 1/2⟩
    (by norm_num) rfl rfl rfl
    (by
      have e1 : dist_sq_center 100 100 ⟨30, 40, 40, 20, 800, 8, 2, 1/2⟩ = 0 := by
        unfold dist_sq_center
        norm_num
      have e2 : dist_sq_center 100 100 ⟨0, 0, 40, 20, 800, 8, 2, 1/2⟩ = 2500 := by
        unfold dist_sq_center
        norm_num
      rw [e1, e2]
      have : ((0:ℚ):ℝ) = 0 := by norm_num
      rw [this]
      exact Real.sqrt_lt_sqrt (le_refl 0) (by norm_num))

/-- C9 counterexample: for a 1 × 1 input image (width ≥ 1, height ≥ 1 as the
claim demands) with no candidates, the fallback crop is
`(1//4, 1//3, 3//4, 2//3) = (0, 0, 0, 0)`: zero width and zero height, so
the claimed clamping to positive size does not exist in the code. -/
theorem C9_counterexample :
    detect_strip 1 1 (Except.ok []) = { x1 := 0, y1 := 0, x2 := 0, y2 := 0 } ∧
    ¬((detect_strip 1 1 (Except.ok [])).x1 < (detect_strip 1 1 (Except.ok [])).x2 ∧
      (detect_strip 1 1 (Except.ok [])).y1 < (detect_strip 1 1 (Except.ok [])).y2) := by
  have e : detect_strip 1 1 (Except.ok []) = { x1 := 0, y1 := 0, x2 := 0, y2 := 0 } := rfl
  refine ⟨e, ?_⟩
  rw [e]
  intro h
  exact absurd h.1 (lt_irrefl 0)

/-- C9 (amended): for every input image of width ≥ 2 and height ≥ 2 whose
contours have bounding boxes inside the image (as `cv2.boundingRect`
guarantees), the region returned by `detect_strip` — the padded located
crop or the fallback crop — has strictly positive width and height; for
1-pixel-wide or 1-pixel-tall images the fallback crop degenerates to zero
size, so the claim's bound `width ≥ 1, height ≥ 1` is too weak. -/
theorem C9_region_positive (imgW imgH : ℕ) (res : Except Unit (List Contour))
    (hW : 2 ≤ imgW) (hH : 2 ≤ imgH)
    (hvalid : ∀ cts, res = Except.ok cts →
      ∀ ct ∈ cts, ct.x + ct.w ≤ imgW ∧ ct.y + ct.h ≤ imgH) :
    (detect_strip imgW imgH res).x1 < (detect_strip imgW imgH res).x2 ∧
    (detect_strip imgW imgH res).y1 < (detect_strip imgW imgH res).y2 := by
  have hfall : (fallback_extraction imgW imgH).x1 < (fallback_extraction imgW imgH).x2 ∧
      (fallback_extraction imgW imgH).y1 < (fallback_extraction imgW imgH).y2 := by
    constructor
    · show imgW / 4 < 3 * imgW / 4
      have e1 := Nat.div_add_mod imgW 4
      have e2 := Nat.div_add_mod (3 * imgW) 4
      have m1 : imgW % 4 < 4 := Nat.mod_lt _ (by norm_num)
      have m2 : (3 * imgW) % 4 < 4 := Nat.mod_lt _ (by norm_num)
      omega
    · show imgH / 3 < 2 * imgH / 3
      have e1 := Nat.div_add_mod imgH 3
      have e2 := Nat.div_add_mod (2 * imgH) 3
      have m1 : imgH % 3 < 3 := Nat.mod_lt _ (by norm_num)
      have m2 : (2 * imgH) % 3 < 3 := Nat.mod_lt _ (by norm_num)
      omega
  match res with
  | Except.error e => exact hfall
  | Except.ok cts =>
    cases hcs : find_strip_candidates imgW imgH cts with
    | nil =>
      have e : detect_strip imgW imgH (Except.ok cts) = fallback_extraction imgW imgH := by
        show (match select_best_strip imgW imgH (find_strip_candidates imgW imgH cts) with
          | none => fallback_extraction imgW imgH
          | some best => extract_strip_region imgW imgH best) = _
        rw [hcs]
        rfl
      rw [e]
      exact hfall
    | cons c rest =>
      have e : detect_strip imgW imgH (Except.ok cts)
          = extract_strip_region imgW imgH (pickBest imgW imgH c rest) := by
        show (match select_best_strip imgW imgH (find_strip_candidates imgW imgH cts) with
          | none => fallback_extraction imgW imgH
          | some best => extract_strip_region imgW imgH best) = _
        rw [hcs]
        rfl
      rw [e]
      obtain ⟨pre, post, heq, hmax, hpre⟩ := pickBest_mem_max imgW imgH rest c
      have hmem : pickBest imgW imgH c rest ∈ find_strip_candidates imgW imgH cts := by
        rw [hcs, heq]
        exact List.mem_append_right pre (List.mem_cons_self _ _)
      obtain ⟨ct, hct, hceq, hA, hP, hR⟩ := mem_find_strip_candidates.mp hmem
      obtain ⟨hxw, hyh⟩ := hvalid cts rfl ct hct
      have hw1 : 1 ≤ ct.w := by
        rcases Nat.eq_zero_or_pos ct.w with h0 | h1
        · rw [h0, Nat.zero_mul] at hA
          omega
        · exact h1
      have hh1 : 1 ≤ ct.h := by
        rcases Nat.eq_zero_or_pos ct.h with h0 | h1
        · rw [h0, Nat.mul_zero] at hA
          omega
        · exact h1
      rw [hceq]
      constructor
      · show ct.x - max 5 (ct.w * 5 / 100) < min imgW (ct.x + ct.w + max 5 (ct.w * 5 / 100))
        have hpx : 5 ≤ max 5 (ct.w * 5 / 100) := le_max_left _ _
        rw [Nat.min_def]
        split_ifs with hmin <;> omega
      · show ct.y - max 5 (ct.h * 5 / 100) < min imgH (ct.y + ct.h + max 5 (ct.h * 5 / 100))
        have hpy : 5 ≤ max 5 (ct.h * 5 / 100) := le_max_left _ _
        rw [Nat.min_def]
        split_ifs with hmin <;> omega

theorem C9_region_positive_witness :
    (detect_strip 4 6 (Except.error ())).x1 < (detect_strip 4 6 (Except.error ())).x2 ∧
    (detect_strip 4 6 (Except.error ())).y1 < (detect_strip 4 6 (Except.error ())).y2 :=
  C9_region_positive 4 6 (Except.error ()) (by norm_num) (by norm_num)
    (fun _ h => nomatch h)
